import Mathlib

/-!
Verification development for the Silence-team1 intent classification and
dispatch engine.  The Python sources under `ai/` and `src/modules/AI/` are
shallowly embedded below: pure functions become Lean functions, the external
LLM calls become explicit outcome parameters, machine floats carrying the
two-decimal confidence values become rationals, and the regular expressions
of the pattern classifier are embedded as an executable matcher over an
explicit regex syntax.
-/

namespace Silence

/-! ## Python string primitives

Helpers mirroring the Python `str` operations used by the sources.
Case mapping is ASCII (the sources only lower ASCII input in the paths
claimed about); whitespace is the ASCII whitespace set of Python. -/

/-- ASCII whitespace, as recognized by Python `str.strip` and `str.split`. -/
def pyIsSpace (c : Char) : Bool :=
  c = ' ' || c = '\t' || c = '\n' || c = '\x0d' || c = '\x0b' || c = '\x0c'

/-- The apostrophe character (U+0027), built numerically. -/
def apos : Char := Char.ofNat 39

/-- A one-character apostrophe string. -/
def aposS : String := String.mk [apos]

/-- Python `str.strip()` on a character list: drop ASCII whitespace at both ends. -/
def stripChars (l : List Char) : List Char :=
  ((l.dropWhile pyIsSpace).reverse.dropWhile pyIsSpace).reverse

/-- Python `str.strip()`. -/
def pyStrip (s : String) : String := String.mk (stripChars s.data)

/-- Python `str.lower()` (ASCII letters only; accented letters pass through,
which matches the lowercase French keywords and inputs in the sources). -/
def pyLower (s : String) : String := String.mk (s.data.map Char.toLower)

/-- Python `str.upper()` (ASCII letters only). -/
def pyUpper (s : String) : String := String.mk (s.data.map Char.toUpper)

/-- Python `str.split()` with no separator: split on whitespace runs,
discarding empty pieces. -/
def pySplitWs (s : String) : List String :=
  (s.split pyIsSpace).filter (fun w => w ≠ "")

/-- List infix test, executable: does `n` occur contiguously inside `h`? -/
def listHasInfix (h n : List Char) : Bool :=
  decide (n <:+: h)

/-- Python `needle in haystack` substring test. -/
def pyContains (haystack needle : String) : Bool :=
  listHasInfix haystack.data needle.data

/-! ## A small regular-expression engine

Just enough of Python `re` semantics for the patterns in
`app/orchestrator/intent_detector.py`: literals, single-character classes,
alternation, concatenation, `.*` over a class, an optional class character,
the `^` and `$` anchors and the `\b` word boundary.  `re.search` semantics:
the pattern may match starting at any position.  All stars in the source
patterns range over single-character classes, so the backtracking matcher
below terminates structurally. -/

/-- Word characters for `\b`: ASCII alphanumerics, underscore, and the
Latin letters with diacritics used by the French keywords (Python `\w`
is Unicode-aware; the Latin-1 and Latin Extended-A letter blocks cover
every accented character appearing in the sources). -/
def isWordChar (c : Char) : Bool :=
  c.isAlphanum || c = '_' ||
    (c.val ≥ 0xC0 && c.val ≤ 0x24F && c.val ≠ 0xD7 && c.val ≠ 0xF7)

/-- Regex abstract syntax. -/
inductive RE where
  | eps : RE
  | lit : List Char → RE
  | cls : (Char → Bool) → RE
  | optCls : (Char → Bool) → RE
  | starCls : (Char → Bool) → RE
  | alt : RE → RE → RE
  | cat : RE → RE → RE
  | bos : RE
  | eos : RE
  | wb : RE

/-- Does a word boundary sit between the previous character and the rest? -/
def atBoundary (prev : Option Char) (s : List Char) : Bool :=
  (match prev with | none => false | some c => isWordChar c)
    ≠ (match s with | [] => false | c :: _ => isWordChar c)

/-- End of input (Python `$` without MULTILINE also matches before a final
newline). -/
def atEnd (s : List Char) : Bool :=
  match s with
  | [] => true
  | ['\n'] => true
  | _ => false

/-- Consume a literal character sequence, then continue with `k`. -/
def litRun (l : List Char) (prev : Option Char) (s : List Char)
    (k : Option Char → List Char → Bool) : Bool :=
  match l, s with
  | [], _ => k prev s
  | _ :: _, [] => false
  | c :: cs, d :: ds => d = c && litRun cs (some d) ds k

/-- Consume zero or more class characters (all backtracking choices), then
continue with `k`. -/
def starRun (p : Char → Bool) (prev : Option Char) (s : List Char)
    (k : Option Char → List Char → Bool) : Bool :=
  k prev s ||
    match s with
    | [] => false
    | c :: cs => p c && starRun p (some c) cs k

/-- Backtracking matcher in continuation-passing style.  `prev` is the
character just before the current position (for `^` and `\b`). -/
def reMatch : RE → Option Char → List Char → (Option Char → List Char → Bool) → Bool
  | .eps, prev, s, k => k prev s
  | .lit l, prev, s, k => litRun l prev s k
  | .cls p, _prev, s, k =>
      (match s with
       | [] => false
       | c :: cs => p c && k (some c) cs)
  | .optCls p, prev, s, k =>
      k prev s ||
        (match s with
         | [] => false
         | c :: cs => p c && k (some c) cs)
  | .starCls p, prev, s, k => starRun p prev s k
  | .alt a b, prev, s, k => reMatch a prev s k || reMatch b prev s k
  | .cat a b, prev, s, k => reMatch a prev s (fun p2 s2 => reMatch b p2 s2 k)
  | .bos, prev, s, k => prev.isNone && k prev s
  | .eos, prev, s, k => atEnd s && k prev s
  | .wb, prev, s, k => atBoundary prev s && k prev s

/-- Try to match `r` starting at the current position or any later one. -/
def searchFrom (r : RE) (prev : Option Char) (s : List Char) : Bool :=
  reMatch r prev s (fun _ _ => true) ||
    match s with
    | [] => false
    | c :: cs => searchFrom r (some c) cs

/-- Python `re.search(r, s)` truthiness. -/
def reSearch (r : RE) (s : String) : Bool :=
  searchFrom r none s.data

/-! ### Pattern combinators used to transcribe the source table -/

/-- Literal regex from a string. -/
def litS (s : String) : RE := .lit s.data

/-- Alternation of a list of regexes (never matches when empty). -/
def alts : List RE → RE
  | [] => .cls (fun _ => false)
  | [r] => r
  | r :: rs => .alt r (alts rs)

/-- `(w1|w2|…)`: alternation of word literals. -/
def wtok (ws : List String) : RE := alts (ws.map litS)

/-- Sequence of regexes. -/
def seqR : List RE → RE
  | [] => .eps
  | [r] => r
  | r :: rs => .cat r (seqR rs)

/-- `\b(w1|…)\b`. -/
def bg (ws : List String) : RE := seqR [.wb, wtok ws, .wb]

/-- `.*` (no DOTALL: anything but a newline). -/
def dotStar : RE := .starCls (fun c => c ≠ '\n')

/-- The class `[\s\!]`. -/
def spaceBang (c : Char) : Bool := pyIsSpace c || c = '!'

/-- The class `[\s\!\.]`. -/
def spaceBangDot (c : Char) : Bool := pyIsSpace c || c = '!' || c = '.'

/-- The class `[-\s]`. -/
def dashSpace (c : Char) : Bool := c = '-' || pyIsSpace c

/-! ## The pattern classifier

Embedding of `app/orchestrator/intent_detector.py`.  Confidences are the
two-decimal float literals of the source, carried exactly as rationals.
Each regex below transcribes one raw-string pattern of `INTENT_PATTERNS`;
the input is lowercased before matching (as in the source), so the
IGNORECASE flag only matters for the `REF|ref` alternation, transcribed as
its lowercase form. -/

/-- One row of a rule group: `(regex, rule_name, confidence)`. -/
structure Rule where
  pattern : RE
  name : String
  conf : ℚ

/-- `r"\b(help|assist|what can|how to|guide|aide|comment)\b"`. -/
def reHelpKeyword : RE :=
  bg ["help", "assist", "what can", "how to", "guide", "aide", "comment"]

/-- `r"^(hi|hello|hey|bonjour|salam|salut)([\s\!]|$)"`. -/
def reGreeting : RE :=
  seqR [.bos, wtok ["hi", "hello", "hey", "bonjour", "salam", "salut"],
        .alt (.cls spaceBang) .eos]

/-- `r"\b(what (can|do) you|qu[''']est-ce que tu|que peux-tu)\b"`
(the bracket class holds three identical ASCII apostrophes). -/
def reCapabilityQuery : RE :=
  seqR [.wb,
        alts [seqR [litS "what ", wtok ["can", "do"], litS " you"],
              seqR [litS "qu", .cls (fun c => c = apos), litS "est-ce que tu"],
              litS "que peux-tu"],
        .wb]

/-- `r"\b(blockchain|proof|verify|audit|trace|prouv|vérif)\b.*\b(booking|reservation|ref|transaction)\b"`. -/
def reBlockchainBooking : RE :=
  seqR [bg ["blockchain", "proof", "verify", "audit", "trace", "prouv", "vérif"],
        dotStar,
        bg ["booking", "reservation", "ref", "transaction"]]

/-- `r"\b(prove|verify|audit|trace|prouv|vérif)\b"`. -/
def reAuditKeyword : RE :=
  bg ["prove", "verify", "audit", "trace", "prouv", "vérif"]

/-- `r"\b(operator|opérateur).*\b(analytics|performance|analyse|aperçu|overview)\b"`. -/
def reOperatorAnalyticsExplicit : RE :=
  seqR [.wb, wtok ["operator", "opérateur"], dotStar,
        bg ["analytics", "performance", "analyse", "aperçu", "overview"]]

/-- `r"\b(ai overview|aperçu ia|business analyst|ba report)\b"`. -/
def reAiOverview : RE :=
  bg ["ai overview", "aperçu ia", "business analyst", "ba report"]

/-- `r"\b(management score|planning quality|operator behavior)\b"`. -/
def reOperatorMetrics : RE :=
  bg ["management score", "planning quality", "operator behavior"]

/-- `r"\b(forecast|prévision|predict).*\b(month|mois|throughput|capacity)\b"`. -/
def reForecastRequest : RE :=
  seqR [.wb, wtok ["forecast", "prévision", "predict"], dotStar,
        bg ["month", "mois", "throughput", "capacity"]]

/-- `r"\b(passage|entry|entries|truck|vehicle|camion|véhicule).*\b(history|yesterday|past|previous|historique|hier|passé|précédent)\b"`. -/
def rePassageHistoryExplicit : RE :=
  seqR [.wb, wtok ["passage", "entry", "entries", "truck", "vehicle", "camion", "véhicule"],
        dotStar,
        bg ["history", "yesterday", "past", "previous", "historique", "hier", "passé", "précédent"]]

/-- `r"\b(show|list|get|afficher|lister).*\b(passage|entry|truck|camion)\b"`. -/
def reShowPassage : RE :=
  seqR [.wb, wtok ["show", "list", "get", "afficher", "lister"], dotStar,
        bg ["passage", "entry", "truck", "camion"]]

/-- `r"\byesterday.*\b(passage|truck|entry|camion)\b"`. -/
def reYesterdayPassage : RE :=
  seqR [.wb, litS "yesterday", dotStar,
        bg ["passage", "truck", "entry", "camion"]]

/-- `r"\b(hier|yesterday).*\b(passage|entrée|camion)\b"`. -/
def reFrenchYesterdayPassage : RE :=
  seqR [.wb, wtok ["hier", "yesterday"], dotStar,
        bg ["passage", "entrée", "camion"]]

/-- `r"\b(recommend|suggest|best|optimal|conseiller|suggérer|meilleur)\b.*\b(slot|time|créneau|heure)\b"`. -/
def reRecommendSlotExplicit : RE :=
  seqR [bg ["recommend", "suggest", "best", "optimal", "conseiller", "suggérer", "meilleur"],
        dotStar,
        bg ["slot", "time", "créneau", "heure"]]

/-- `r"\b(which|what|quel).*\b(slot|time|créneau).*\b(best|better|recommend|meilleur|conseillé)\b"`. -/
def reWhichBestSlot : RE :=
  seqR [.wb, wtok ["which", "what", "quel"], dotStar,
        .wb, wtok ["slot", "time", "créneau"], dotStar,
        bg ["best", "better", "recommend", "meilleur", "conseillé"]]

/-- `r"\b(alternative|other|autre).*\b(slot|time|créneau)\b"`. -/
def reAlternativeSlot : RE :=
  seqR [.wb, wtok ["alternative", "other", "autre"], dotStar,
        bg ["slot", "time", "créneau"]]

/-- `r"\b(available|availability|free|open|disponible|disponibilité|libre|ouvert).*\b(slot|time|appointment|créneau|heure|rendez-vous)\b"`. -/
def reSlotAvailabilityExplicit : RE :=
  seqR [.wb,
        wtok ["available", "availability", "free", "open", "disponible",
              "disponibilité", "libre", "ouvert"],
        dotStar,
        bg ["slot", "time", "appointment", "créneau", "heure", "rendez-vous"]]

/-- `r"\b(slot|time|appointment|créneau|heure).*\b(available|free|open|disponible|libre)\b"`. -/
def reSlotAvailableReversed : RE :=
  seqR [.wb, wtok ["slot", "time", "appointment", "créneau", "heure"], dotStar,
        bg ["available", "free", "open", "disponible", "libre"]]

/-- `r"\b(book|reserve|schedule|réserver|planifier).*\b(slot|time|créneau|heure)\b"`. -/
def reBookSlot : RE :=
  seqR [.wb, wtok ["book", "reserve", "schedule", "réserver", "planifier"], dotStar,
        bg ["slot", "time", "créneau", "heure"]]

/-- `r"\b(check|voir|vérifier).*\b(availability|disponibilité)\b"`. -/
def reCheckAvailability : RE :=
  seqR [.wb, wtok ["check", "voir", "vérifier"], dotStar,
        bg ["availability", "disponibilité"]]

/-- `r"\b(status|track|where|check|find|locate|statut|suivre|où|vérifier|trouver|localiser).*\b(booking|reservation|ref|reference|réservation|référence)\b"`. -/
def reStatusBookingExplicit : RE :=
  seqR [.wb,
        wtok ["status", "track", "where", "check", "find", "locate", "statut",
              "suivre", "où", "vérifier", "trouver", "localiser"],
        dotStar,
        bg ["booking", "reservation", "ref", "reference", "réservation", "référence"]]

/-- `r"\b(booking|reservation|ref|reference|réservation).*\b(status|track|where|check|statut|suivre|où)\b"`. -/
def reBookingStatusReversed : RE :=
  seqR [.wb, wtok ["booking", "reservation", "ref", "reference", "réservation"], dotStar,
        bg ["status", "track", "where", "check", "statut", "suivre", "où"]]

/-- `r"\b(REF|ref)[-\s]?\d{3,}\b"` (input is lowercased before matching). -/
def reBookingRefPattern : RE :=
  seqR [.wb, litS "ref", .optCls dashSpace,
        .cls Char.isDigit, .cls Char.isDigit, .cls Char.isDigit,
        .starCls Char.isDigit, .wb]

/-- `r"\b(where is|où est|quand|when).*\b(booking|reservation|my|ma|mon)\b"`. -/
def reWhereBooking : RE :=
  seqR [.wb, wtok ["where is", "où est", "quand", "when"], dotStar,
        bg ["booking", "reservation", "my", "ma", "mon"]]

/-- `r"^(ok|okay|d'accord|merci|thanks|thank you|oui|yes|non|no)([\s\!\.]|$)"`. -/
def reAcknowledgment : RE :=
  seqR [.bos,
        wtok ["ok", "okay", "d" ++ aposS ++ "accord", "merci", "thanks",
              "thank you", "oui", "yes", "non", "no"],
        .alt (.cls spaceBangDot) .eos]

/-- `r"^(good|bien|bon)([\s\!\.]|$)"`. -/
def rePositiveShort : RE :=
  seqR [.bos, wtok ["good", "bien", "bon"], .alt (.cls spaceBangDot) .eos]

/-- `r"\b(how are you|comment ça va|ça va)\b"`. -/
def reHowAreYou : RE :=
  bg ["how are you", "comment ça va", "ça va"]

/-- The priority-ordered rule table `INTENT_PATTERNS` (Python dicts preserve
insertion order, so the declaration order below is the priority order). -/
def INTENT_PATTERNS : List (String × List Rule) :=
  [("help",
    [⟨reHelpKeyword, "help_keyword", 0.95⟩,
     ⟨reGreeting, "greeting", 0.95⟩,
     ⟨reCapabilityQuery, "capability_query", 0.90⟩]),
   ("blockchain_audit",
    [⟨reBlockchainBooking, "blockchain_booking", 0.90⟩,
     ⟨reAuditKeyword, "audit_keyword", 0.85⟩]),
   ("operator_analytics_overview",
    [⟨reOperatorAnalyticsExplicit, "operator_analytics_explicit", 0.92⟩,
     ⟨reAiOverview, "ai_overview", 0.90⟩,
     ⟨reOperatorMetrics, "operator_metrics", 0.88⟩,
     ⟨reForecastRequest, "forecast_request", 0.85⟩]),
   ("passage_history",
    [⟨rePassageHistoryExplicit, "passage_history_explicit", 0.90⟩,
     ⟨reShowPassage, "show_passage", 0.85⟩,
     ⟨reYesterdayPassage, "yesterday_passage", 0.88⟩,
     ⟨reFrenchYesterdayPassage, "french_yesterday_passage", 0.88⟩]),
   ("slot_recommendation",
    [⟨reRecommendSlotExplicit, "recommend_slot_explicit", 0.92⟩,
     ⟨reWhichBestSlot, "which_best_slot", 0.90⟩,
     ⟨reAlternativeSlot, "alternative_slot", 0.85⟩]),
   ("slot_availability",
    [⟨reSlotAvailabilityExplicit, "slot_availability_explicit", 0.90⟩,
     ⟨reSlotAvailableReversed, "slot_available_reversed", 0.90⟩,
     ⟨reBookSlot, "book_slot", 0.85⟩,
     ⟨reCheckAvailability, "check_availability", 0.82⟩]),
   ("booking_status",
    [⟨reStatusBookingExplicit, "status_booking_explicit", 0.90⟩,
     ⟨reBookingStatusReversed, "booking_status_reversed", 0.90⟩,
     ⟨reBookingRefPattern, "booking_ref_pattern", 0.85⟩,
     ⟨reWhereBooking, "where_booking", 0.82⟩]),
   ("smalltalk",
    [⟨reAcknowledgment, "acknowledgment", 0.70⟩,
     ⟨rePositiveShort, "positive_short", 0.65⟩,
     ⟨reHowAreYou, "how_are_you", 0.75⟩])]

/-- The follow-up marker regex of `detect_intent`:
`r"\b(and|what about|then|also|too|same|yesterday|tomorrow|today|next|previous|et|puis|aussi|même|hier|demain|aujourd'hui)\b"`. -/
def reFollowUp : RE :=
  bg ["and", "what about", "then", "also", "too", "same", "yesterday",
      "tomorrow", "today", "next", "previous", "et", "puis", "aussi",
      "même", "hier", "demain", "aujourd" ++ aposS ++ "hui"]

/-! ## `detect_intent` and its helpers -/

/-- The result dataclass of the intent detector.  `entitiesHint` models the
Python dict: the empty-message branch returns `{}` (empty list) while
`_get_entity_hints` always returns the two keys `expected` and `optional`. -/
structure IntentResult where
  intent : String
  confidence : ℚ
  reasoning : List String
  entitiesHint : List (String × List String)
deriving DecidableEq, Repr

/-- One conversation turn, as consumed by `_get_last_intent`: the relevant
fields of the history dicts are `intent` and `metadata.intent`, either of
which may be absent (`none`) or empty.  Turns that are not dicts never
arise in the embedding. -/
structure Turn where
  intent : Option String := none
  metaIntent : Option String := none
deriving DecidableEq, Repr

/-- Python `msg.get("intent") or msg.get("metadata", {}).get("intent")`:
the `or` falls through when the first operand is `None` or empty. -/
def turnIntent (t : Turn) : Option String :=
  match t.intent with
  | some s => if s = "" then t.metaIntent else some s
  | none => t.metaIntent

/-- Intents skipped by `_get_last_intent` when scanning the history. -/
def skipIntents : List String :=
  ["unknown", "help", "smalltalk", "forbidden", "not_implemented"]

/-- The scan of `_get_last_intent`, over the already-reversed history. -/
def lastIntentAux : List Turn → Option String
  | [] => none
  | t :: ts =>
      match turnIntent t with
      | some s => if s ≠ "" ∧ s ∉ skipIntents then some s else lastIntentAux ts
      | none => lastIntentAux ts

/-- `_get_last_intent`: extract the last non-generic intent from history
(most recent last, scanned in reverse). -/
def get_last_intent (history : List Turn) : Option String :=
  lastIntentAux history.reverse

/-- `_get_entity_hints`: expected entities per intent. -/
def get_entity_hints (intent : String) : List (String × List String) :=
  if intent = "booking_status" then
    [("expected", ["booking_ref"]), ("optional", ["date"])]
  else if intent = "slot_availability" then
    [("expected", ["terminal", "date"]), ("optional", ["gate"])]
  else if intent = "slot_recommendation" then
    [("expected", ["terminal", "date"]),
     ("optional", ["gate", "carrier_id", "requested_time"])]
  else if intent = "passage_history" then
    [("expected", ["date"]), ("optional", ["terminal", "gate"])]
  else if intent = "blockchain_audit" then
    [("expected", ["booking_ref"]), ("optional", [])]
  else if intent = "operator_analytics_overview" then
    [("expected", ["operator_id"]),
     ("optional", ["terminal", "range_days", "bucket"])]
  else
    [("expected", []), ("optional", [])]

/-- An entry of `all_matches`: `(intent, confidence, matched rule names)`. -/
structure GMatch where
  intent : String
  conf : ℚ
  reasons : List String
deriving DecidableEq, Repr

/-- The inner loop over one rule group: append each matching rule name and
keep the running maximum confidence (initialised to `0.0`), exactly as the
Python `for pattern, rule_name, confidence in patterns` loop does. -/
def scanGroup (text : String) (rules : List Rule) : List String × ℚ :=
  rules.foldl
    (fun acc r =>
      if reSearch r.pattern text then (acc.1 ++ [r.name], max acc.2 r.conf)
      else acc)
    ([], 0)

/-- The `all_matches` list of `detect_intent`, in table (priority) order. -/
def allMatches (text : String) : List GMatch :=
  INTENT_PATTERNS.filterMap
    (fun g =>
      let s := scanGroup text g.2
      if s.1 = [] then none else some ⟨g.1, s.2, s.1⟩)

/-- Stable insertion into a descending-by-confidence list: an element goes
before every strictly smaller confidence and before nothing of greater or
equal confidence it follows in the input. -/
def insertDesc (x : GMatch) : List GMatch → List GMatch
  | [] => [x]
  | y :: ys => if x.conf ≥ y.conf then x :: y :: ys else y :: insertDesc x ys

/-- Stable descending sort by confidence, the semantics of the Python
`all_matches.sort(key=lambda x: x[1], reverse=True)` (Python sorts are
stable, so ties keep declaration order). -/
def sortDesc : List GMatch → List GMatch
  | [] => []
  | x :: xs => insertDesc x (sortDesc xs)

/-- The unknown fallthrough result of `detect_intent`. -/
def unknownResult : IntentResult :=
  ⟨"unknown", 0.5, ["no_pattern_matched"], [("expected", []), ("optional", [])]⟩

/-- `detect_intent(message, history)`: the pattern classifier.  Faithful
shallow embedding of the source: empty-message guard, lowercase and strip,
full scan of the priority-ordered table, stable descending sort on
confidence, follow-up resolution when nothing matched, unknown fallback. -/
def detect_intent (message : String) (history : List Turn) : IntentResult :=
  if pyStrip message = "" then
    ⟨"unknown", 1, ["empty_message"], []⟩
  else
    let ml := pyStrip (pyLower message)
    let hit : Option IntentResult :=
      (sortDesc (allMatches ml)).head?.map
        (fun m => ⟨m.intent, m.conf, m.reasons, get_entity_hints m.intent⟩)
    let followUp : Option IntentResult :=
      if history ≠ [] then
        if (pySplitWs ml).length ≤ 4 || reSearch reFollowUp ml then
          match get_last_intent history with
          | some li =>
              if li ∉ (["unknown", "help", "smalltalk"] : List String) then
                some ⟨li, 0.70,
                      ["follow_up_pattern", "last_intent:" ++ li],
                      get_entity_hints li⟩
              else none
          | none => none
        else none
      else none
    hit.getD (followUp.getD unknownResult)

/-! ## Specification-style reformulations

Definitions following the words of the specification (maximum over matching
rules, all matching names, argmax across groups with first-declared
tie-break, history scan).  The theorems below prove the code embedding
equal to them. -/

/-- Rules of a group that match the text. -/
def matchingRules (text : String) (rules : List Rule) : List Rule :=
  rules.filter (fun r => reSearch r.pattern text)

/-- Spec: all matching rule names of a group are retained. -/
def specGroupReasons (text : String) (rules : List Rule) : List String :=
  (matchingRules text rules).map (fun r => r.name)

/-- Spec: the maximum confidence among matching rules is kept (running
maximum from the float `0.0` the source loop starts at). -/
def specGroupConf (text : String) (rules : List Rule) : ℚ :=
  ((matchingRules text rules).map (fun r => r.conf)).foldl max 0

/-- Spec: the per-group hits, in priority (declaration) order; a group
contributes exactly when some of its rules matched. -/
def specMatches (text : String) : List GMatch :=
  INTENT_PATTERNS.filterMap
    (fun g =>
      if specGroupReasons text g.2 = [] then none
      else some ⟨g.1, specGroupConf text g.2, specGroupReasons text g.2⟩)

/-- Spec: the single highest-confidence hit wins, ties broken in favor of
the earlier (first-declared) group. -/
def specBest : List GMatch → Option GMatch
  | [] => none
  | x :: xs =>
      match specBest xs with
      | none => some x
      | some b => if x.conf ≥ b.conf then some x else some b

/-- The group loop accumulates exactly the matching names and their running
maximum confidence. -/
lemma scanGroup_foldl (text : String) (rules : List Rule) :
    ∀ acc : List String × ℚ,
      rules.foldl
        (fun acc r =>
          if reSearch r.pattern text then (acc.1 ++ [r.name], max acc.2 r.conf)
          else acc) acc
      = (acc.1 ++ specGroupReasons text rules,
         ((matchingRules text rules).map (fun r => r.conf)).foldl max acc.2) := by
  induction rules with
  | nil => intro acc; simp [specGroupReasons, matchingRules]
  | cons r rs ih =>
      intro acc
      by_cases h : reSearch r.pattern text
      · simp only [List.foldl_cons, h, if_pos]
        rw [ih]
        simp [specGroupReasons, matchingRules, h]
      · simp only [List.foldl_cons, h, if_neg, Bool.false_eq_true,
          not_false_eq_true]
        rw [ih]
        simp [specGroupReasons, matchingRules, h]

/-- The source scan of one group equals its spec description. -/
lemma scanGroup_eq (text : String) (rules : List Rule) :
    scanGroup text rules = (specGroupReasons text rules, specGroupConf text rules) := by
  unfold scanGroup specGroupConf
  rw [scanGroup_foldl]
  simp

/-- The `all_matches` list equals its spec description. -/
lemma allMatches_eq_specMatches (text : String) :
    allMatches text = specMatches text := by
  unfold allMatches specMatches
  apply List.filterMap_congr
  intro g _
  rw [scanGroup_eq]

/-- Stable insertion grows the length by one. -/
lemma length_insertDesc (x : GMatch) (l : List GMatch) :
    (insertDesc x l).length = l.length + 1 := by
  induction l with
  | nil => rfl
  | cons y ys ih =>
      unfold insertDesc
      by_cases h : x.conf ≥ y.conf
      · simp [h]
      · simp [h, ih]

/-- Sorting preserves the length. -/
lemma length_sortDesc (l : List GMatch) : (sortDesc l).length = l.length := by
  induction l with
  | nil => rfl
  | cons x xs ih => unfold sortDesc; rw [length_insertDesc, ih]; simp

/-- The head of the stable descending sort is the first hit attaining the
maximum confidence. -/
lemma head?_sortDesc (l : List GMatch) : (sortDesc l).head? = specBest l := by
  induction l with
  | nil => rfl
  | cons x xs ih =>
      unfold sortDesc specBest
      cases h : sortDesc xs with
      | nil =>
          have hx : xs = [] := by
            have := length_sortDesc xs
            rw [h] at this
            exact List.length_eq_zero.mp this.symm
          subst hx
          simp [insertDesc, specBest]
      | cons y ys =>
          rw [h] at ih
          rw [← ih]
          unfold insertDesc
          by_cases hc : x.conf ≥ y.conf
          · simp [hc]
          · simp [hc]

/-- The spec winner exists exactly on a nonempty hit list. -/
lemma specBest_none_iff (l : List GMatch) : specBest l = none ↔ l = [] := by
  cases l with
  | nil => simp [specBest]
  | cons x xs =>
      unfold specBest
      cases specBest xs with
      | none => simp
      | some b =>
          by_cases hc : x.conf ≥ b.conf <;> simp [hc]

/-- The spec winner is one of the hits. -/
lemma specBest_mem (l : List GMatch) :
    ∀ w : GMatch, specBest l = some w → w ∈ l := by
  induction l with
  | nil => intro w h; simp [specBest] at h
  | cons x xs ih =>
      intro w h
      unfold specBest at h
      cases hb : specBest xs with
      | none =>
          rw [hb] at h
          simp at h
          simp [h]
      | some b =>
          rw [hb] at h
          by_cases hc : x.conf ≥ b.conf
          · simp [hc] at h
            simp [h]
          · simp [hc] at h
            exact List.mem_cons_of_mem x (ih w (h ▸ hb))

/-- The spec winner carries the maximal confidence among the hits. -/
lemma specBest_ge (l : List GMatch) :
    ∀ w : GMatch, specBest l = some w → ∀ m ∈ l, m.conf ≤ w.conf := by
  induction l with
  | nil => intro w h; simp [specBest] at h
  | cons x xs ih =>
      intro w h m hm
      unfold specBest at h
      cases hb : specBest xs with
      | none =>
          have hx : xs = [] := (specBest_none_iff xs).mp hb
          subst hx
          rw [hb] at h
          simp at h hm
          subst h; subst hm; exact le_refl _
      | some b =>
          rw [hb] at h
          by_cases hc : x.conf ≥ b.conf
          · simp [hc] at h
            rcases List.mem_cons.mp hm with hmx | hmxs
            · subst hmx; rw [← h]
            · calc m.conf ≤ b.conf := ih b hb m hmxs
                _ ≤ x.conf := hc
                _ = w.conf := by rw [h]
          · simp [hc] at h
            rcases List.mem_cons.mp hm with hmx | hmxs
            · subst hmx
              calc m.conf ≤ b.conf := (lt_of_not_ge hc).le
                _ = w.conf := by rw [h]
            · calc m.conf ≤ b.conf := ih b hb m hmxs
                _ = w.conf := by rw [h]

/-! ## Claim theorems about the pattern classifier -/

/-- Claim C3, counterexample: on the message `book an available slot` the
pattern classifier returns `slot_availability`, not a create intent as the
claim states (the table has no create group at all). -/
theorem book_available_slot_not_create :
    (detect_intent "book an available slot" []).intent = "slot_availability" := by
  with_unfolding_all decide

/-- Claim C3, amended: `book an available slot` matches two rules of the
`slot_availability` group (`slot_availability_explicit` at confidence 0.90
and `book_slot` at 0.85) and no rule of any other group, so `detect_intent`
returns `slot_availability` with confidence 0.90 and both rule names in the
reasoning; the create-wins tie-break of the claim does not apply because the
pattern table has no create intent group. -/
theorem book_available_slot_classifies_slot_availability :
    detect_intent "book an available slot" [] =
      ⟨"slot_availability", 0.90, ["slot_availability_explicit", "book_slot"],
       [("expected", ["terminal", "date"]), ("optional", ["gate"])]⟩ ∧
    allMatches (pyStrip (pyLower "book an available slot")) =
      [⟨"slot_availability", 0.90, ["slot_availability_explicit", "book_slot"]⟩] := by
  constructor
  · with_unfolding_all decide
  · with_unfolding_all decide

/-- Blank input strips to the empty string. -/
lemma stripChars_all_space {l : List Char} (h : ∀ c ∈ l, pyIsSpace c) :
    stripChars l = [] := by
  unfold stripChars
  have h1 : l.dropWhile pyIsSpace = [] :=
    List.dropWhile_eq_nil_iff.mpr (fun c hc => h c hc)
  rw [h1]
  rfl

/-- Claim C8 (confirmed): every empty or whitespace-only message yields
intent `unknown` with confidence 1.0, the `empty_message` reasoning entry
and an empty entity map; the embedding is a total function, so no exception
can be raised on this path. -/
theorem detect_intent_blank_message (message : String) (history : List Turn)
    (h : ∀ c ∈ message.data, pyIsSpace c) :
    detect_intent message history = ⟨"unknown", 1, ["empty_message"], []⟩ := by
  have hs : pyStrip message = "" := by
    unfold pyStrip
    rw [stripChars_all_space h]
  simp [detect_intent, hs]

/-- Claim C8 witness: the three-space message hits the blank branch. -/
theorem detect_intent_blank_message_witness :
    (∀ c ∈ ("   " : String).data, pyIsSpace c) ∧
    detect_intent "   " [] = ⟨"unknown", 1, ["empty_message"], []⟩ :=
  ⟨by decide, detect_intent_blank_message "   " [] (by decide)⟩

/-- Claim C9 (confirmed): the pattern classifier is a pure function of the
message and history, so two calls with identical input return identical
intent, confidence and reasoning.  The embedding exhibits `detect_intent`
as a Lean function with no state or randomness, and the component triple of
one call is definitionally equal to that of a second call. -/
theorem detect_intent_deterministic (message : String) (history : List Turn) :
    ((detect_intent message history).intent,
     (detect_intent message history).confidence,
     (detect_intent message history).reasoning)
    = ((detect_intent message history).intent,
       (detect_intent message history).confidence,
       (detect_intent message history).reasoning) := rfl

/-- Claim C6 (confirmed): whenever some rule matches, the classifier result
is exactly the spec-side winner: each group keeps all its matching rule
names and their maximum confidence, and across groups the first-declared
group attaining the maximal confidence wins (`specBest` encodes the
first-declared tie-break).  The conjuncts also expose that the winner
dominates every other group hit and is built from one full group scan. -/
theorem detect_intent_argmax_priority (message : String) (history : List Turn)
    (w : GMatch) (hne : pyStrip message ≠ "")
    (hw : specBest (specMatches (pyStrip (pyLower message))) = some w) :
    detect_intent message history =
      ⟨w.intent, w.conf, w.reasons, get_entity_hints w.intent⟩ ∧
    (∀ m ∈ specMatches (pyStrip (pyLower message)), m.conf ≤ w.conf) ∧
    (∃ g ∈ INTENT_PATTERNS, g.1 = w.intent ∧
       w.conf = specGroupConf (pyStrip (pyLower message)) g.2 ∧
       w.reasons = specGroupReasons (pyStrip (pyLower message)) g.2) := by
  refine ⟨?_, specBest_ge _ w hw, ?_⟩
  · have hhead : (sortDesc (allMatches (pyStrip (pyLower message)))).head? = some w := by
      rw [head?_sortDesc, allMatches_eq_specMatches]
      exact hw
    simp [detect_intent, if_neg hne, hhead]
  · have hmem : w ∈ specMatches (pyStrip (pyLower message)) :=
      specBest_mem _ w hw
    unfold specMatches at hmem
    rcases List.mem_filterMap.mp hmem with ⟨g, hg, hfg⟩
    by_cases hr : specGroupReasons (pyStrip (pyLower message)) g.2 = []
    · rw [if_pos hr] at hfg; cases hfg
    · rw [if_neg hr] at hfg
      refine ⟨g, hg, ?_, ?_, ?_⟩
      · exact (congrArg GMatch.intent (Option.some.inj hfg)).symm ▸ rfl
      · exact ((congrArg GMatch.conf (Option.some.inj hfg))).symm
      · exact ((congrArg GMatch.reasons (Option.some.inj hfg))).symm

/-- Claim C6 witness: on `book an available slot` the spec winner is the
slot availability hit and the classifier agrees. -/
theorem detect_intent_argmax_priority_witness :
    detect_intent "book an available slot" [] =
      ⟨"slot_availability", 0.90, ["slot_availability_explicit", "book_slot"],
       get_entity_hints "slot_availability"⟩ :=
  (detect_intent_argmax_priority "book an available slot" []
    ⟨"slot_availability", 0.90, ["slot_availability_explicit", "book_slot"]⟩
    (by with_unfolding_all decide) (by with_unfolding_all decide)).1

/-! ## Follow-up resolution (claim C5) -/

/-- Claim wording, original: scan most recent to oldest, first recorded
intent not in the three-element set `{unknown, help, smalltalk}` (the scan
below receives the already-reversed history). -/
def claimScanBypass3 : List Turn → Option String
  | [] => none
  | t :: ts =>
      match turnIntent t with
      | some s =>
          if s ≠ "" ∧ s ∉ (["unknown", "help", "smalltalk"] : List String)
          then some s else claimScanBypass3 ts
      | none => claimScanBypass3 ts

/-- Claim wording, original three-element bypass set, on a history with the
most recent turn last. -/
def claimLastIntent3 (history : List Turn) : Option String :=
  claimScanBypass3 history.reverse

/-- Amended claim wording: same scan but with the five-element skip set of
the source (`unknown, help, smalltalk, forbidden, not_implemented`). -/
def claimScanBypass5 : List Turn → Option String
  | [] => none
  | t :: ts =>
      match turnIntent t with
      | some s => if s ≠ "" ∧ s ∉ skipIntents then some s else claimScanBypass5 ts
      | none => claimScanBypass5 ts

/-- Amended claim scan on a history with the most recent turn last. -/
def claimLastIntent5 (history : List Turn) : Option String :=
  claimScanBypass5 history.reverse

/-- The source scan and the amended claim scan coincide. -/
lemma lastIntentAux_eq_claim5 (l : List Turn) :
    lastIntentAux l = claimScanBypass5 l := by
  induction l with
  | nil => rfl
  | cons t ts ih =>
      unfold lastIntentAux claimScanBypass5
      cases turnIntent t with
      | none => exact ih
      | some s =>
          by_cases hs : s ≠ "" ∧ s ∉ skipIntents
          · simp [hs]
          · simp only [if_neg hs]
            exact ih

/-- A successful scan never returns a skipped intent. -/
lemma lastIntentAux_not_skip (l : List Turn) :
    ∀ s, lastIntentAux l = some s → s ≠ "" ∧ s ∉ skipIntents := by
  induction l with
  | nil => intro s h; cases h
  | cons t ts ih =>
      intro s h
      unfold lastIntentAux at h
      split at h
      · split at h
        · injection h with hvs
          subst hvs
          assumption
        · exact ih s h
      · exact ih s h

/-- Claim C5, counterexample: with a history whose most recent recorded
intent is `forbidden` (older turn `booking_status`) and the unmatched short
message `zzz`, the claim set `{unknown, help, smalltalk}` selects
`forbidden`, but the classifier skips it (its skip set also holds
`forbidden` and `not_implemented`) and returns `booking_status`. -/
theorem follow_up_skip_set_counterexample :
    claimLastIntent3
        [⟨some "booking_status", none⟩, ⟨some "forbidden", none⟩] =
      some "forbidden" ∧
    (detect_intent "zzz"
        [⟨some "booking_status", none⟩, ⟨some "forbidden", none⟩]).intent =
      "booking_status" := by
  constructor
  · with_unfolding_all decide
  · with_unfolding_all decide

/-- Claim C5, amended (skip set enlarged to the five intents of the
source): when no pattern matches a nonblank message, follow-up resolution
fires exactly when the history is nonempty and the message is short (at
most 4 tokens) or has a follow-up marker; it returns the most recent
recorded intent outside `{unknown, help, smalltalk, forbidden,
not_implemented}` at confidence 0.70, and the unknown result stands
otherwise. -/
theorem follow_up_resolution_amended (message : String) (history : List Turn)
    (hne : pyStrip message ≠ "")
    (hnm : allMatches (pyStrip (pyLower message)) = []) :
    (history ≠ [] →
       ((pySplitWs (pyStrip (pyLower message))).length ≤ 4 ∨
         reSearch reFollowUp (pyStrip (pyLower message)) = true) →
       detect_intent message history =
         (match claimLastIntent5 history with
          | some li =>
              ⟨li, 0.70, ["follow_up_pattern", "last_intent:" ++ li],
               get_entity_hints li⟩
          | none => unknownResult)) ∧
    ((history = [] ∨
       ((pySplitWs (pyStrip (pyLower message))).length > 4 ∧
         reSearch reFollowUp (pyStrip (pyLower message)) = false)) →
       detect_intent message history = unknownResult) ∧
    (∀ li, claimLastIntent5 history = some li → li ∉ skipIntents) := by
  have hhead : (sortDesc (allMatches (pyStrip (pyLower message)))).head? = none := by
    rw [hnm]; rfl
  have hglc : get_last_intent history = claimLastIntent5 history := by
    unfold get_last_intent claimLastIntent5
    exact lastIntentAux_eq_claim5 _
  refine ⟨?_, ?_, ?_⟩
  · intro hh hcond
    have hcondb :
        ((decide ((pySplitWs (pyStrip (pyLower message))).length ≤ 4)) ||
          reSearch reFollowUp (pyStrip (pyLower message))) = true := by
      rcases hcond with h | h
      · simp [h]
      · simp [h]
    simp only [detect_intent, if_neg hne, hhead, Option.map_none', Option.getD_none]
    rw [if_pos hh, if_pos hcondb, hglc]
    cases hli : claimLastIntent5 history with
    | none => rfl
    | some li =>
        have hnotskip : li ∉ skipIntents :=
          (lastIntentAux_not_skip history.reverse li
            (by rw [lastIntentAux_eq_claim5]; exact hli)).2
        have h3 : li ∉ (["unknown", "help", "smalltalk"] : List String) := by
          intro hmem
          apply hnotskip
          simp only [skipIntents, List.mem_cons, List.not_mem_nil, or_false] at hmem ⊢
          tauto
        simp [h3]
  · intro hcase
    simp only [detect_intent, if_neg hne, hhead, Option.map_none', Option.getD_none]
    rcases hcase with hh | ⟨hlen, hmark⟩
    · rw [if_neg (by simp [hh])]
      rfl
    · have hcondb :
          ((decide ((pySplitWs (pyStrip (pyLower message))).length ≤ 4)) ||
            reSearch reFollowUp (pyStrip (pyLower message))) = false := by
        simp [hmark]
        omega
      by_cases hh : history ≠ []
      · rw [if_pos hh, if_neg (by rw [hcondb]; simp)]
        rfl
      · rw [if_neg hh]
        rfl
  · intro li hli
    exact (lastIntentAux_not_skip history.reverse li
      (by rw [lastIntentAux_eq_claim5]; exact hli)).2

/-- Claim C5 witness: the unmatched one-token message `zzz` with a
single-turn history resolves to the recorded `booking_status` intent. -/
theorem follow_up_resolution_amended_witness :
    detect_intent "zzz" [⟨some "booking_status", none⟩] =
      ⟨"booking_status", 0.70, ["follow_up_pattern", "last_intent:booking_status"],
       get_entity_hints "booking_status"⟩ := by
  have h := (follow_up_resolution_amended "zzz" [⟨some "booking_status", none⟩]
    (by with_unfolding_all decide) (by with_unfolding_all decide)).1
    (by simp) (Or.inl (by with_unfolding_all decide))
  rw [h]
  with_unfolding_all decide

/-! ## A small JSON parser

Embedding of the `json.loads` calls of the two LLM adapters: values are
null, booleans, numbers (as rationals), strings, arrays and objects.  The
parser requires the whole input to be consumed (as `json.loads` does) and
rejects leading zeros, bare fractions and invalid escapes like the strict
Python decoder. -/

/-- JSON values.  Objects keep their fields in source order. -/
inductive Json where
  | null : Json
  | bool : Bool → Json
  | num : ℚ → Json
  | str : String → Json
  | arr : List Json → Json
  | obj : List (String × Json) → Json

/-- Skip JSON whitespace. -/
def jSkipWs (s : List Char) : List Char :=
  s.dropWhile (fun c => c = ' ' || c = '\t' || c = '\n' || c = '\x0d')

/-- Parse the remainder of a JSON string literal (after the opening quote),
accumulator in reverse. -/
def jpStringAux : List Char → List Char → Option (String × List Char)
  | acc, '"' :: r => some (String.mk acc.reverse, r)
  | acc, '\\' :: e :: r =>
      (match e with
       | '"' => jpStringAux ('"' :: acc) r
       | '\\' => jpStringAux ('\\' :: acc) r
       | '/' => jpStringAux ('/' :: acc) r
       | 'b' => jpStringAux ('\x08' :: acc) r
       | 'f' => jpStringAux ('\x0c' :: acc) r
       | 'n' => jpStringAux ('\n' :: acc) r
       | 'r' => jpStringAux ('\x0d' :: acc) r
       | 't' => jpStringAux ('\t' :: acc) r
       | 'u' =>
           (match r with
            | h1 :: h2 :: h3 :: h4 :: r2 =>
                let isHex : Char → Bool := fun c =>
                  c.isDigit || (c.val ≥ 97 && c.val ≤ 102) || (c.val ≥ 65 && c.val ≤ 70)
                if isHex h1 && isHex h2 && isHex h3 && isHex h4 then
                  let hv : Char → Nat := fun c =>
                    if c.isDigit then c.toNat - 48
                    else if c.val ≥ 97 then c.toNat - 87
                    else c.toNat - 55
                  jpStringAux
                    (Char.ofNat (((hv h1 * 16 + hv h2) * 16 + hv h3) * 16 + hv h4) :: acc) r2
                else none
            | _ => none)
       | _ => none)
  | acc, c :: r => if c.val < 32 then none else jpStringAux (c :: acc) r
  | _, [] => none

/-- Decimal digits to a natural number. -/
def digitsVal (ds : List Char) : Nat :=
  ds.foldl (fun a c => a * 10 + (c.toNat - 48)) 0

/-- Parse an optional exponent part. -/
def jpExp : List Char → Option (Int × List Char)
  | 'e' :: r | 'E' :: r =>
      let p : Int × List Char :=
        match r with
        | '+' :: rr => (1, rr)
        | '-' :: rr => (-1, rr)
        | _ => (1, r)
      let ds := p.2.takeWhile Char.isDigit
      if ds = [] then none
      else some (p.1 * (digitsVal ds : Int), p.2.dropWhile Char.isDigit)
  | s => some (0, s)

/-- Integer power of ten as a rational. -/
def qpow10 : Int → ℚ
  | .ofNat n => (10 : ℚ) ^ n
  | .negSucc n => 1 / (10 : ℚ) ^ (n + 1)

/-- Assemble a number from sign, integer part, fraction digits and the
remaining input. -/
def jpFinish (neg : Bool) (ip : Nat) (fd : List Char) (r : List Char) :
    Option (Json × List Char) :=
  match jpExp r with
  | none => none
  | some (e, rest) =>
      let base : ℚ := (ip : ℚ) + (digitsVal fd : ℚ) * qpow10 (-(fd.length : Int))
      some (.num ((if neg then (-1 : ℚ) else 1) * base * qpow10 e), rest)

/-- Parse the part after the integer digits: optional fraction, exponent. -/
def jpAfterInt (neg : Bool) (ip : Nat) (r1 : List Char) : Option (Json × List Char) :=
  match r1 with
  | '.' :: rest =>
      let fd := rest.takeWhile Char.isDigit
      if fd = [] then none
      else jpFinish neg ip fd (rest.dropWhile Char.isDigit)
  | _ => jpFinish neg ip [] r1

/-- Parse an unsigned number (leading-zero rule of strict JSON). -/
def jpNumUnsigned (neg : Bool) (s : List Char) : Option (Json × List Char) :=
  let ds := s.takeWhile Char.isDigit
  if ds = [] then none
  else if 1 < ds.length ∧ ds.headI = '0' then none
  else jpAfterInt neg (digitsVal ds) (s.dropWhile Char.isDigit)

/-- Parse a JSON number. -/
def jpNumber (s : List Char) : Option (Json × List Char) :=
  match s with
  | '-' :: r => jpNumUnsigned true r
  | _ => jpNumUnsigned false s

mutual

/-- Parse one JSON value (fuel bounds the nesting). -/
def jpValue : Nat → List Char → Option (Json × List Char)
  | 0, _ => none
  | n + 1, s =>
      match jSkipWs s with
      | 'n' :: 'u' :: 'l' :: 'l' :: r => some (.null, r)
      | 't' :: 'r' :: 'u' :: 'e' :: r => some (.bool true, r)
      | 'f' :: 'a' :: 'l' :: 's' :: 'e' :: r => some (.bool false, r)
      | '"' :: r => (jpStringAux [] r).map (fun p => (.str p.1, p.2))
      | '[' :: r =>
          (match jSkipWs r with
           | ']' :: r2 => some (.arr [], r2)
           | r2 => (jpElems n r2).map (fun p => (.arr p.1, p.2)))
      | '{' :: r =>
          (match jSkipWs r with
           | '}' :: r2 => some (.obj [], r2)
           | r2 => (jpFields n r2).map (fun p => (.obj p.1, p.2)))
      | s2 => jpNumber s2

/-- Parse one or more array elements up to the closing bracket. -/
def jpElems : Nat → List Char → Option (List Json × List Char)
  | 0, _ => none
  | n + 1, s =>
      match jpValue n s with
      | none => none
      | some (v, r) =>
          match jSkipWs r with
          | ',' :: r2 => (jpElems n r2).map (fun p => (v :: p.1, p.2))
          | ']' :: r2 => some ([v], r2)
          | _ => none

/-- Parse one or more object fields up to the closing brace. -/
def jpFields : Nat → List Char → Option (List (String × Json) × List Char)
  | 0, _ => none
  | n + 1, s =>
      match jSkipWs s with
      | '"' :: r =>
          (match jpStringAux [] r with
           | none => none
           | some (k, r2) =>
               match jSkipWs r2 with
               | ':' :: r3 =>
                   (match jpValue n r3 with
                    | none => none
                    | some (v, r4) =>
                        match jSkipWs r4 with
                        | ',' :: r5 => (jpFields n r5).map (fun p => ((k, v) :: p.1, p.2))
                        | '}' :: r5 => some ([(k, v)], r5)
                        | _ => none)
               | _ => none)
      | _ => none

end

/-- Python `json.loads`: parse one value, demand full consumption. -/
def jsonLoads (s : String) : Option Json :=
  match jpValue (s.data.length + 2) s.data with
  | some (v, rest) => if jSkipWs rest = [] then some v else none
  | none => none

/-- Python dict lookup built from JSON object fields (later keys win, as in
the Python decoder). -/
def jlookup (fields : List (String × Json)) (k : String) : Option Json :=
  (fields.reverse.find? (fun f => f.1 == k)).map (fun f => f.2)

/-! ## String helpers for the Gemini adapter -/

/-- Character-list prefix test. -/
def listStartsWith : List Char → List Char → Bool
  | [], _ => true
  | _ :: _, [] => false
  | a :: as, b :: bs => a = b && listStartsWith as bs

/-- Python `str.startswith`. -/
def pyStartsWith (s pre : String) : Bool := listStartsWith pre.data s.data

/-- Python `str.split(sep)` on character lists (fuel-driven; the fuel is
always at least the input length, so it never runs out). -/
def splitOnFuel (sep : List Char) : Nat → List Char → List Char → List (List Char)
  | _, acc, [] => [acc.reverse]
  | 0, acc, s => [acc.reverse ++ s]
  | n + 1, acc, c :: cs =>
      if sep ≠ [] ∧ listStartsWith sep (c :: cs) then
        acc.reverse :: splitOnFuel sep n [] ((c :: cs).drop sep.length)
      else
        splitOnFuel sep n (c :: acc) cs

/-- Python `str.split(sep)` for a non-empty separator. -/
def pySplitOn (s sep : String) : List String :=
  (splitOnFuel sep.data (s.data.length + 1) [] s.data).map String.mk

/-! ## The Gemini LLM adapter

Embedding of `app/agno_runtime/llm_provider.py` and
`app/agno_runtime/intent_classifier.py`.  The single external completion
call is modelled by outcome parameters: each `CallOutcome` is what one
`generate_content` attempt did (returned text, hit the `asyncio` timeout,
or raised some other error).  `llm_complete` receives the outcomes of the
at most two attempts it can make; its second component counts how many
external calls were issued. -/

/-- Outcome of one external completion attempt. -/
inductive CallOutcome where
  | ok : String → CallOutcome
  | timeout : CallOutcome
  | fail : String → CallOutcome
deriving DecidableEq, Repr

/-- `llm_complete`: first attempt returning text succeeds with one call; a
timeout raises the distinct `LLM request timed out` exception without any
retry (one call); any other failure triggers exactly one retry, and if the
retry also fails the exception carries the first error text.  The second
component counts the external calls issued. -/
def llm_complete (first second : CallOutcome) : Except String String × Nat :=
  match first with
  | .ok t => (.ok t, 1)
  | .timeout => (.error "LLM request timed out", 1)
  | .fail e =>
      match second with
      | .ok t => (.ok t, 2)
      | _ => (.error ("LLM request failed: " ++ e), 2)

/-- The default of `intent_confidence_threshold` in
`app/agno_runtime/config.py`. -/
def defaultIntentConfidenceThreshold : ℚ := 0.45

/-- Result dict of the Gemini intent classifier:
`(intent, entities, confidence)`.  The confidence is kept as a JSON value
because the parsed response may carry a non-numeric one (the source only
coerces it at the threshold comparison, raising on non-numbers). -/
structure IntentReply where
  intent : String
  entities : Json
  confidence : Json

/-- The closed intent vocabulary of `_parse_intent_response`. -/
def VALID_INTENTS : List String :=
  ["booking_status", "booking_create", "slot_availability", "passage_history",
   "blockchain_audit", "help", "unknown"]

/-- The markdown code-fence stripping of `_parse_intent_response`: strip
whitespace, and when the text starts with three backticks keep the lines
between the first and last one. -/
def stripFences (response : String) : String :=
  let r := pyStrip response
  if pyStartsWith r "```" then
    String.intercalate "\n" (((pySplitOn r "\n").drop 1).dropLast)
  else r

/-- `_fallback_intent_extraction`: keyword scan over the raw response text
with fixed confidence 0.3. -/
def fallback_intent_extraction (response : String) : IntentReply :=
  let rl := pyLower response
  let intent :=
    if pyContains rl "booking_status" || pyContains rl "status" then "booking_status"
    else if pyContains rl "booking_create" || pyContains rl "create" ||
        pyContains rl "book" then "booking_create"
    else if pyContains rl "slot_availability" || pyContains rl "availability" then
      "slot_availability"
    else if pyContains rl "passage_history" || pyContains rl "passage" then
      "passage_history"
    else if pyContains rl "blockchain" || pyContains rl "audit" then "blockchain_audit"
    else if pyContains rl "help" || pyContains rl "greeting" then "help"
    else "unknown"
  ⟨intent, .obj [], .num 0.3⟩

/-- `_parse_intent_response`: strip fences, `json.loads`; on decode failure
fall back to keyword extraction over the stripped text; a parsed non-object
or an object without `intent` raises and is caught by the generic handler
(`{unknown, {}, 0.0}`); missing `entities`/`confidence` get defaults; an
out-of-vocabulary or non-string intent is coerced to `unknown`. -/
def parse_intent_response (response : String) : IntentReply :=
  let r := stripFences response
  match jsonLoads r with
  | none => fallback_intent_extraction r
  | some (.obj fields) =>
      (match jlookup fields "intent" with
       | none => ⟨"unknown", .obj [], .num 0⟩
       | some iv =>
           let ent := (jlookup fields "entities").getD (.obj [])
           let conf := (jlookup fields "confidence").getD (.num 0.5)
           let intent :=
             match iv with
             | .str s => if s ∈ VALID_INTENTS then s else "unknown"
             | _ => "unknown"
           ⟨intent, ent, conf⟩)
  | some _ => ⟨"unknown", .obj [], .num 0⟩

/-- The comparison `confidence < threshold` of `classify_intent`: defined
for numbers and booleans (Python treats `bool` as an integer), raising a
`TypeError` (here `none`) otherwise. -/
def jsonNumLt (v : Json) (t : ℚ) : Option Bool :=
  match v with
  | .num q => some (decide (q < t))
  | .bool b => some (decide ((if b then (1 : ℚ) else 0) < t))
  | _ => none

/-- `classify_intent` of the Gemini adapter
(`app/agno_runtime/intent_classifier.py`): call `llm_complete` (outcomes of
the two possible attempts supplied as parameters), parse the response,
downgrade a below-threshold result to `unknown` keeping the reported
confidence; ANY exception — including the distinct timeout error raised by
`llm_complete` — is caught by the blanket handler and replaced by
`{intent: unknown, entities: {}, confidence: 0.0}`. -/
def classify_intent_gemini (threshold : ℚ) (first second : CallOutcome) : IntentReply :=
  match (llm_complete first second).1 with
  | .error _ => ⟨"unknown", .obj [], .num 0⟩
  | .ok resp =>
      let result := parse_intent_response resp
      match jsonNumLt result.confidence threshold with
      | some true => ⟨"unknown", .obj [], result.confidence⟩
      | some false => result
      | none => ⟨"unknown", .obj [], .num 0⟩

/-! ## The Groq/OpenAI adapter

Embedding of `ai/app/agno_runtime.py`. -/

/-- Outcome of the awaited Groq classification: completion content, the
`asyncio.wait_for` timeout, or an API/import error (those are caught inside
`_classify_with_groq` and fall back to patterns). -/
inductive AgnoOutcome where
  | ok : String → AgnoOutcome
  | timeout : AgnoOutcome
  | err : String → AgnoOutcome
deriving DecidableEq, Repr

/-- The HTTP error raised on timeout (status plus the `error` tag of the
detail payload, whose message text reads `AGNO classification timed out
after …s`). -/
structure AgnoHTTPError where
  status : Nat
  error : String
deriving DecidableEq, Repr

/-- Result of the Groq adapter: either the parsed JSON dict returned
verbatim, or the pattern-based fallback reply. -/
inductive AgnoResult where
  | parsed : Json → AgnoResult
  | patterns : IntentReply → AgnoResult

/-- `_classify_with_patterns`: the keyword fallback classifier of the
Groq/OpenAI adapter.  Every branch returns a fixed non-unknown intent; the
final else returns `{help, 0.6}`. -/
def classify_with_patterns (message : String) : IntentReply :=
  if ["help", "assist", "guide", "hi", "hello", "bonjour"].any
      (fun w => pyContains (pyLower message) w) then ⟨"help", .obj [], .num 0.95⟩
  else if pyContains (pyLower message) "ref" ||
      (pyContains (pyLower message) "status" && pyContains (pyLower message) "booking") then
    ⟨"booking_status", .obj [], .num 0.90⟩
  else if ["book", "reserve", "create", "réserver"].any
      (fun w => pyContains (pyLower message) w) then
    ⟨"booking_create", .obj [], .num 0.85⟩
  else if ["available", "slot", "free", "disponible"].any
      (fun w => pyContains (pyLower message) w) then
    ⟨"slot_availability", .obj [], .num 0.85⟩
  else if pyContains (pyLower message) "passage" || pyContains (pyLower message) "history" ||
      pyContains (pyLower message) "historique" then ⟨"passage_history", .obj [], .num 0.85⟩
  else if pyContains (pyLower message) "blockchain" || pyContains (pyLower message) "proof" ||
      pyContains (pyLower message) "verify" then ⟨"blockchain_audit", .obj [], .num 0.85⟩
  else if pyContains (pyLower message) "carrier" && (pyContains (pyLower message) "score" ||
      pyContains (pyLower message) "performance") then ⟨"carrier_scoring", .obj [], .num 0.85⟩
  else ⟨"help", .obj [], .num 0.60⟩

/-- The code-fence stripping of `_classify_with_groq`:
`content.split("```" )[1]`, then drop a leading `json` tag. -/
def stripGroqFence (content : String) : String :=
  let c1 := ((pySplitOn content "```").get? 1).getD ""
  if pyStartsWith c1 "json" then String.mk (c1.data.drop 4) else c1

/-- The response handling of `_classify_with_groq`: strip, unfence, parse;
the source then reads `result[intent]` and `result[confidence]` (for its
log line), so a non-object or a missing key raises and the internal handler
falls back to patterns. -/
def groq_parse (message content : String) : AgnoResult :=
  let c0 := pyStrip content
  let c := if pyStartsWith c0 "```" then stripGroqFence c0 else c0
  match jsonLoads c with
  | some (.obj fields) =>
      if (jlookup fields "intent").isSome ∧ (jlookup fields "confidence").isSome then
        .parsed (.obj fields)
      else .patterns (classify_with_patterns message)
  | some _ => .patterns (classify_with_patterns message)
  | none => .patterns (classify_with_patterns message)

/-- `classify_intent` of the Groq/OpenAI adapter (`ai/app/agno_runtime.py`):
when the feature is disabled it classifies with patterns; enabled, a
timeout of the wrapped call raises the distinct HTTP 504 `agno_timeout`
error, an API error falls back to patterns, and returned content is parsed
as above. -/
def agno_classify_intent (enabled : Bool) (message : String)
    (outcome : AgnoOutcome) : Except AgnoHTTPError AgnoResult :=
  if enabled then
    match outcome with
    | .timeout => .error ⟨504, "agno_timeout"⟩
    | .err _ => .ok (.patterns (classify_with_patterns message))
    | .ok content => .ok (groq_parse message content)
  else .ok (.patterns (classify_with_patterns message))

/-! ## Role gate and access policy -/

/-- The allowed role strings of the chat endpoint
(`src/modules/AI/app/api/chat.py`). -/
def ALLOWED_ROLES : List String := ["ADMIN", "OPERATOR", "CARRIER"]

/-- The role guard at the top of the `chat` endpoint: the role is stripped
and uppercased, and any value outside `ALLOWED_ROLES` raises an HTTP 400
before any classification or authorization happens.  Returns the HTTP
status raised, or `none` when the request proceeds. -/
def chat_role_gate (user_role : String) : Option Nat :=
  let role := pyUpper (pyStrip user_role)
  if role ∈ ALLOWED_ROLES then none else some 400

/-- Modelled from the spec: the role to permitted-intents table of the
Orchestrator (`_rbac_check` in `app/orchestrator/orchestrator.py`, which is
not among the sources; only its callers and tests are).  Spec section 4.5
and the RBAC tests fix the rows: ADMIN and OPERATOR hold every domain
intent, CARRIER everything except `blockchain_audit`. -/
def ROLE_PERMISSIONS : List (String × List String) :=
  [("ADMIN",
    ["booking_status", "booking_create", "slot_availability", "passage_history",
     "blockchain_audit"]),
   ("OPERATOR",
    ["booking_status", "booking_create", "slot_availability", "passage_history",
     "blockchain_audit"]),
   ("CARRIER",
    ["booking_status", "booking_create", "slot_availability", "passage_history"])]

/-- Modelled from the spec: `authorize(intent, role)` — a pure lookup in
the static table; `help` and `unknown` are always authorized regardless of
role; the role is uppercased before lookup; roles absent from the table are
denied everything except the bypass intents. -/
def authorize (intent role : String) : Bool :=
  intent == "help" || intent == "unknown" ||
    (match ROLE_PERMISSIONS.find? (fun p => p.1 == pyUpper role) with
     | some p => p.2.contains intent
     | none => false)

/-! ## Claim theorems about the adapters and the access policy -/

/-- Claim C1, counterexample: when the single Gemini call times out, the
adapter `classify_intent` does NOT propagate the distinct timeout signal:
the blanket exception handler substitutes the default classification
`{intent: unknown, entities: {}, confidence: 0.0}`. -/
theorem gemini_timeout_returns_unknown :
    classify_intent_gemini defaultIntentConfidenceThreshold .timeout (.ok "") =
      ⟨"unknown", Json.obj [], Json.num 0⟩ := rfl

/-- Claim C1, amended: the timeout does produce a distinct signal at the
two lower layers — `llm_complete` raises the dedicated `LLM request timed
out` error without retrying, and the Groq adapter raises the distinct HTTP
504 `agno_timeout` error — but the Gemini adapter `classify_intent`
catches every exception and silently returns
`{intent: unknown, entities: {}, confidence: 0.0}`, so no timeout signal
reaches its caller. -/
theorem timeout_signal_amended (t : ℚ) (second : CallOutcome) (message : String) :
    (llm_complete .timeout second).1 = .error "LLM request timed out" ∧
    classify_intent_gemini t .timeout second = ⟨"unknown", Json.obj [], Json.num 0⟩ ∧
    agno_classify_intent true message .timeout = .error ⟨504, "agno_timeout"⟩ :=
  ⟨rfl, rfl, rfl⟩

/-- Claim C2, counterexample: for the non-JSON response `status`, the
keyword fallback extracts `booking_status` at confidence 0.3, but under the
default threshold 0.45 `classify_intent` downgrades the final result to
intent `unknown` — the keyword-matched intent is not returned. -/
theorem fallback_below_threshold_counterexample :
    (classify_intent_gemini defaultIntentConfidenceThreshold (.ok "status") (.ok "")).intent
      = "unknown" ∧
    fallback_intent_extraction "status" =
      ⟨"booking_status", Json.obj [], Json.num 0.3⟩ := by
  constructor
  · with_unfolding_all rfl
  · with_unfolding_all rfl

/-- Claim C2, amended: on a non-parseable LLM response the parse step does
recover via keyword fallback extraction at fixed confidence 0.3, but the
threshold check of `classify_intent` then downgrades the result to
`{intent: unknown, confidence: 0.3}` under the default threshold 0.45; the
keyword-matched intent is returned only when the configured threshold is at
most 0.3. -/
theorem parse_failure_fallback_amended (response : String) (second : CallOutcome)
    (h : jsonLoads (stripFences response) = none) :
    parse_intent_response response = fallback_intent_extraction (stripFences response) ∧
    (parse_intent_response response).confidence = Json.num 0.3 ∧
    (classify_intent_gemini defaultIntentConfidenceThreshold (.ok response) second).intent
      = "unknown" ∧
    (classify_intent_gemini defaultIntentConfidenceThreshold (.ok response) second).confidence
      = Json.num 0.3 ∧
    (∀ t : ℚ, t ≤ 0.3 →
       classify_intent_gemini t (.ok response) second =
         fallback_intent_extraction (stripFences response)) := by
  have h1 : parse_intent_response response =
      fallback_intent_extraction (stripFences response) := by
    simp only [parse_intent_response, h]
  have heta : fallback_intent_extraction (stripFences response) =
      ⟨(fallback_intent_extraction (stripFences response)).intent,
       Json.obj [], Json.num 0.3⟩ := rfl
  have hkey : ∀ t : ℚ, classify_intent_gemini t (.ok response) second =
      (if decide ((0.3 : ℚ) < t) then
        (⟨"unknown", Json.obj [], Json.num 0.3⟩ : IntentReply)
       else fallback_intent_extraction (stripFences response)) := by
    intro t
    show (match jsonNumLt (parse_intent_response response).confidence t with
          | some true =>
              (⟨"unknown", Json.obj [], (parse_intent_response response).confidence⟩ :
                IntentReply)
          | some false => parse_intent_response response
          | none => ⟨"unknown", Json.obj [], Json.num 0⟩) = _
    rw [h1, heta]
    simp only [jsonNumLt]
    cases hd : decide ((0.3 : ℚ) < t) <;> simp [hd]
  have hdef : decide ((0.3 : ℚ) < defaultIntentConfidenceThreshold) = true :=
    decide_eq_true (by norm_num [defaultIntentConfidenceThreshold])
  refine ⟨h1, ?_, ?_, ?_, ?_⟩
  · rw [h1, heta]
  · rw [hkey defaultIntentConfidenceThreshold, hdef]
    rfl
  · rw [hkey defaultIntentConfidenceThreshold, hdef]
    rfl
  · intro t ht
    have hf : decide ((0.3 : ℚ) < t) = false := decide_eq_false (not_lt.mpr ht)
    rw [hkey t, hf]
    rfl

/-- Claim C2 witness: the plain-text response `status` fails JSON parsing
and the adapter returns intent `unknown` at confidence 0.3. -/
theorem parse_failure_fallback_amended_witness :
    jsonLoads (stripFences "status") = none ∧
    (classify_intent_gemini defaultIntentConfidenceThreshold (.ok "status") (.ok "")).intent
      = "unknown" ∧
    (classify_intent_gemini defaultIntentConfidenceThreshold (.ok "status") (.ok "")).confidence
      = Json.num 0.3 := by
  have hp : jsonLoads (stripFences "status") = none := by with_unfolding_all rfl
  have h := parse_failure_fallback_amended "status" (.ok "") hp
  exact ⟨hp, h.2.2.1, h.2.2.2.1⟩

/-- Claim C4, counterexample: when the first external call fails with a
non-timeout error, `llm_complete` retries: two external completion calls
are issued for one classification request. -/
theorem llm_complete_retry_counterexample :
    (llm_complete (.fail "boom") (.ok "recovered")).2 = 2 ∧
    llm_complete (.fail "boom") (.ok "recovered") = (.ok "recovered", 2) :=
  ⟨rfl, rfl⟩

/-- Claim C4, amended: `llm_complete` issues at most two external
completion calls per classification request: a successful or timed-out
first call ends after one call (the timeout propagates as its distinct
error with no retry), while any other failure of the first call triggers
exactly one retry, never more. -/
theorem llm_complete_call_bound (first second : CallOutcome) :
    (llm_complete first second).2 ≤ 2 ∧
    (first = .timeout → llm_complete first second = (.error "LLM request timed out", 1)) ∧
    (∀ s, first = .ok s → llm_complete first second = (.ok s, 1)) ∧
    (∀ e, first = .fail e → (llm_complete first second).2 = 2) := by
  cases first <;> cases second <;> simp [llm_complete]

/-- Claim C4 witness: a timed-out first call yields one call and the
distinct error; a failed first call yields two calls. -/
theorem llm_complete_call_bound_witness :
    llm_complete .timeout (.ok "x") = (.error "LLM request timed out", 1) ∧
    (llm_complete (.fail "boom") (.ok "x")).2 = 2 :=
  ⟨(llm_complete_call_bound .timeout (.ok "x")).2.1 rfl,
   (llm_complete_call_bound (.fail "boom") (.ok "x")).2.2.2 "boom" rfl⟩

/-- Claim C7, counterexample: the access policy does authorize the bypass
intents for the unrecognized role `GUEST`, but such a request never gets
that far — the chat endpoint rejects any role outside
`{ADMIN, OPERATOR, CARRIER}` with HTTP 400 before classification, so the
request receives a rejection, not a useful reply. -/
theorem unrecognized_role_rejected_counterexample :
    chat_role_gate "GUEST" = some 400 ∧
    authorize "help" "GUEST" = true ∧
    authorize "unknown" "GUEST" = true := by
  refine ⟨?_, ?_, ?_⟩ <;> with_unfolding_all rfl

/-- Claim C7, amended: in the access policy (modelled from the spec, the
orchestrator module being absent from the sources) `help` and `unknown`
are authorized for every role including unrecognized ones, and every
non-bypass intent is denied for roles outside the recognized set; however
the chat endpoint rejects a request whose stripped, uppercased role is
outside `{ADMIN, OPERATOR, CARRIER}` with HTTP 400 before any
classification, so such a request is answered with a rejection rather than
a bypass-intent reply. -/
theorem bypass_intents_authorized_amended (intent role : String)
    (hrole : pyUpper role ∉ ALLOWED_ROLES)
    (hint : intent ≠ "help") (hint2 : intent ≠ "unknown") :
    authorize "help" role = true ∧
    authorize "unknown" role = true ∧
    authorize intent role = false ∧
    (pyUpper (pyStrip role) ∉ ALLOWED_ROLES → chat_role_gate role = some 400) := by
  have h1 : pyUpper role ≠ "ADMIN" := by
    intro hc; apply hrole; rw [hc]; simp [ALLOWED_ROLES]
  have h2 : pyUpper role ≠ "OPERATOR" := by
    intro hc; apply hrole; rw [hc]; simp [ALLOWED_ROLES]
  have h3 : pyUpper role ≠ "CARRIER" := by
    intro hc; apply hrole; rw [hc]; simp [ALLOWED_ROLES]
  refine ⟨by simp [authorize], by simp [authorize], ?_, ?_⟩
  · have b1 : ("ADMIN" == pyUpper role) = false := beq_eq_false_iff_ne.mpr (Ne.symm h1)
    have b2 : ("OPERATOR" == pyUpper role) = false := beq_eq_false_iff_ne.mpr (Ne.symm h2)
    have b3 : ("CARRIER" == pyUpper role) = false := beq_eq_false_iff_ne.mpr (Ne.symm h3)
    simp [authorize, ROLE_PERMISSIONS, List.find?, hint, hint2, b1, b2, b3]
  · intro hg
    simp [chat_role_gate, hg]

/-- Claim C7 witness: for the unrecognized role `GUEST`, the bypass
intents are authorized, `booking_status` is denied, and the endpoint
rejects the request with HTTP 400. -/
theorem bypass_intents_authorized_amended_witness :
    authorize "help" "GUEST" = true ∧
    authorize "unknown" "GUEST" = true ∧
    authorize "booking_status" "GUEST" = false ∧
    chat_role_gate "GUEST" = some 400 := by
  have h := bypass_intents_authorized_amended "booking_status" "GUEST"
    (by decide) (by decide) (by decide)
  exact ⟨h.1, h.2.1, h.2.2.1, h.2.2.2 (by decide)⟩

/-- Claim wording for C10: a message matching none of the keyword families
of `_classify_with_patterns` (exactly the branch guards of the source). -/
def matchesNoKeywordFamily (message : String) : Bool :=
  !(["help", "assist", "guide", "hi", "hello", "bonjour"].any
      (fun w => pyContains (pyLower message) w)) &&
  !(pyContains (pyLower message) "ref" ||
      (pyContains (pyLower message) "status" && pyContains (pyLower message) "booking")) &&
  !(["book", "reserve", "create", "réserver"].any
      (fun w => pyContains (pyLower message) w)) &&
  !(["available", "slot", "free", "disponible"].any
      (fun w => pyContains (pyLower message) w)) &&
  !(pyContains (pyLower message) "passage" || pyContains (pyLower message) "history" ||
      pyContains (pyLower message) "historique") &&
  !(pyContains (pyLower message) "blockchain" || pyContains (pyLower message) "proof" ||
      pyContains (pyLower message) "verify") &&
  !(pyContains (pyLower message) "carrier" && (pyContains (pyLower message) "score" ||
      pyContains (pyLower message) "performance"))

/-- Claim C10 (confirmed): the pattern fallback classifier of the
Groq/OpenAI adapter never returns intent `unknown`; a message matching no
keyword family yields `{help, 0.6}`; and with the LLM feature disabled the
adapter `classify_intent` always answers with exactly this pattern result,
hence never `unknown`. -/
theorem pattern_fallback_never_unknown (message : String) (outcome : AgnoOutcome) :
    (classify_with_patterns message).intent ≠ "unknown" ∧
    (matchesNoKeywordFamily message = true →
       classify_with_patterns message = ⟨"help", Json.obj [], Json.num 0.60⟩) ∧
    agno_classify_intent false message outcome =
      .ok (.patterns (classify_with_patterns message)) := by
  refine ⟨?_, ?_, rfl⟩
  · unfold classify_with_patterns
    split_ifs <;> decide
  · intro h
    simp only [matchesNoKeywordFamily, Bool.and_eq_true, Bool.not_eq_true'] at h
    obtain ⟨⟨⟨⟨⟨⟨hf1, hf2⟩, hf3⟩, hf4⟩, hf5⟩, hf6⟩, hf7⟩ := h
    simp [classify_with_patterns, hf1, hf2, hf3, hf4, hf5, hf6, hf7]

/-- Claim C10 witness: the message `qqq` matches no keyword family and the
fallback answers `{help, 0.6}`. -/
theorem pattern_fallback_never_unknown_witness :
    matchesNoKeywordFamily "qqq" = true ∧
    classify_with_patterns "qqq" = ⟨"help", Json.obj [], Json.num 0.60⟩ :=
  ⟨by with_unfolding_all rfl,
   (pattern_fallback_never_unknown "qqq" (.ok "")).2.1 (by with_unfolding_all rfl)⟩

end Silence
